import Mathlib

/-!
Shallow embedding of the markdown generation library (`src/markdown/mod.rs`):
escaping engine, streak counter, element serialization, and the fluent
construction helpers, together with proofs about the claims of the spec.

Strings are modelled as lists of byte values (`Bytes := List Nat`); all
concrete inputs appearing in the development are ASCII, so a Lean string
literal has code points that coincide with its UTF-8 bytes.
-/

/-- Byte strings, as lists of natural-number byte values. -/
abbrev Bytes := List Nat

/-- UTF-8 bytes of an ASCII string literal (code point = byte for ASCII). -/
def bytesOfAscii (s : String) : Bytes :=
  s.data.map Char.toNat

/-- `enum Escaping` from the source: string escaping mode. -/
inductive Escaping where
  | Normal
  | InlineCode
deriving DecidableEq

/-- The `Normal` escape set, the bytes of the Rust literal
`b"\\`*_{}[]()#+-.!"`: backslash, backtick, asterisk, underscore, braces,
brackets, parentheses, hash, plus, minus, dot, bang. -/
def normalEscapeSet : Bytes :=
  [92, 96, 42, 95, 123, 125, 91, 93, 40, 41, 35, 43, 45, 46, 33]

/-- `data.iter().position(|x| escape.contains(x))`: index of the first byte of
`data` that lies in `escape`. -/
def findSpecial (escape : Bytes) : Bytes → Option Nat
  | [] => none
  | x :: xs =>
    if escape.contains x then some 0
    else (findSpecial escape xs).map (· + 1)

/-- `fn write_escaped`: single forward scan; flush the run before each special
byte, emit a backslash and the byte, continue past it. -/
def write_escaped (data : Bytes) (escape : Bytes) : Bytes :=
  match h : findSpecial escape data with
  | none => data
  | some slice_at =>
    data.take slice_at ++ [92] ++ (data.drop slice_at).take 1 ++
      write_escaped (data.drop (slice_at + 1)) escape
termination_by data.length
decreasing_by
  have key : ∀ (l : Bytes) (i : Nat), findSpecial escape l = some i →
      i < l.length := by
    intro l
    induction l with
    | nil => intro i hi; simp [findSpecial] at hi
    | cons x xs ih =>
      intro i hi
      simp only [findSpecial] at hi
      split at hi
      · simp only [Option.some.injEq] at hi
        simp [← hi]
      · simp only [Option.map_eq_some'] at hi
        obtain ⟨j, hj, rfl⟩ := hi
        have := ih j hj
        simp only [List.length_cons]
        omega
  have := key data slice_at h
  simp
  omega

/-- The loop of `<&str>::count_max_streak`: scan the bytes, extending the
current run on a match and closing it (updating the max) on a mismatch. -/
def countMaxStreakGo (char : Nat) : Bytes → Nat → Nat → Nat × Nat
  | [], max, current => (max, current)
  | ch :: rest, max, current =>
    if ch = char then countMaxStreakGo char rest max (current + 1)
    else countMaxStreakGo char rest (if current > max then current else max) 0

/-- `<&str as MarkdownWritable>::count_max_streak`: `max` starts at 0 and
`current` starts at the carried-in streak. -/
def count_max_streak (s : Bytes) (char : Nat) (carry : Nat) : Nat × Nat :=
  countMaxStreakGo char s 0 carry

/-- `<&str as MarkdownWritable>::write_to`: escape under `Normal`, pass bytes
through under `InlineCode`; a top-level (`inner = false`) string is followed by
a blank-line separator `"\n\n"`. Bytes are appended to the sink `sink`. -/
def strWriteTo (s : Bytes) (inner : Bool) (escape : Escaping) (sink : Bytes) :
    Bytes :=
  let sink := match escape with
    | .Normal => sink ++ write_escaped s normalEscapeSet
    | .InlineCode => sink ++ s
  if inner then sink else sink ++ [10, 10]

/-- The element tree: every concrete `MarkdownWritable` implementor of the
source (Rust `Vec<Box<dyn MarkdownWritable>>` children become
`List Element`). `str s` is a `&str` leaf; `richText` carries the
bold/italic/code flags and the text fragment; `link` carries display-text
children and the address fragment; `heading` carries its level; `paragraph`
carries only children. -/
inductive Element where
  | str (s : Bytes)
  | richText (bold italic code : Bool) (text : Bytes)
  | link (children : List Element) (address : Bytes)
  | heading (level : Nat) (children : List Element)
  | paragraph (children : List Element)

/-- A `panic!`/`assert!` failure during serialization: the message together
with the bytes the sink had already received when the panic fired. -/
abbrev WriteResult := Except (String × Bytes) Bytes

mutual

/-- `MarkdownWritable::write_to` for every element kind, threading the sink
explicitly. A Rust `assert!` failure is an `Except.error` carrying the panic
message and the sink contents at that moment (panicking writes nothing). -/
def writeTo : Element → Bool → Escaping → Bytes → WriteResult
  | .str s, inner, escape, sink => .ok (strWriteTo s inner escape sink)
  | .richText bold italic code text, inner, escape, sink =>
    let symbol : Bytes := if bold then [42, 42] else []
    let symbol := if italic then symbol ++ [42] else symbol
    let symEsc : Bytes × Escaping :=
      if code then
        let ticks_needed := (count_max_streak text 96 0).1 + 1
        (symbol ++ List.replicate ticks_needed 96 ++ [32], .InlineCode)
      else (symbol, escape)
    let sink := sink ++ symEsc.1
    let sink := strWriteTo text true symEsc.2 sink
    let sink := sink ++ symEsc.1.reverse
    .ok (if inner then sink else sink ++ [10])
  | .link children address, inner, escape, sink => do
    let sink := sink ++ [91]
    let sink ← writeChildren children true escape sink
    let sink := sink ++ [93, 40]
    let sink := strWriteTo address true escape sink
    let sink := sink ++ [41]
    pure (if inner then sink else sink ++ [10])
  | .heading level children, inner, _escape, sink =>
    if inner then .error ("Inner headings are forbidden.", sink)
    else do
      let sink := sink ++ (List.replicate level 35 ++ [32])
      let sink ← writeChildren children true .Normal sink
      pure (sink ++ [10])
  | .paragraph children, inner, escape, sink =>
    if inner then .error ("Inner paragraphs are forbidden.", sink)
    else do
      let sink ← writeChildren children true escape sink
      pure (sink ++ [10, 10])

/-- The `for child in &self.children { child.write_to(...)? }` loops. -/
def writeChildren : List Element → Bool → Escaping → Bytes → WriteResult
  | [], _, _, sink => .ok sink
  | c :: cs, inner, escape, sink => do
    let sink ← writeTo c inner escape sink
    writeChildren cs inner escape sink

end

mutual

/-- `MarkdownWritable::count_max_streak` for every element kind. -/
def elemCountMaxStreak : Element → Nat → Nat → Nat × Nat
  | .str s, char, carry => count_max_streak s char carry
  | .richText _ _ _ text, char, _carry =>
    ((count_max_streak text char 0).1, 0)
  | .link children address, char, _carry =>
    let addr := (count_max_streak address char 0).1
    let x := childrenCountMaxStreak children char 0
    if x.1 > addr then (x.1, 0) else (addr, 0)
  | .heading _ children, char, _carry =>
    childrenCountMaxStreak children char 0
  | .paragraph children, char, carry =>
    ((childrenCountMaxStreak children char carry).1, 0)

/-- The `count += c; carry = cr` child-aggregation loop shared by paragraph,
heading and link. -/
def childrenCountMaxStreak : List Element → Nat → Nat → Nat × Nat
  | [], _, carry => (0, carry)
  | c :: cs, char, carry =>
    let x := elemCountMaxStreak c char carry
    let rest := childrenCountMaxStreak cs char x.2
    (x.1 + rest.1, rest.2)

end

/-- `Markdown::write`: serialize one top-level element with `inner = false`
under the `Normal` context. -/
def Markdown.write (element : Element) (sink : Bytes) : WriteResult :=
  writeTo element false .Normal sink

/-- `Heading::new`: `assert!(level > 0 && level <= 6)`; `none` models the
panic, `some` the constructed (empty) heading. -/
def Heading.new (level : Nat) : Option Element :=
  if level > 0 ∧ level ≤ 6 then some (.heading level []) else none

/-- The `Link` struct: display-text children plus the address fragment. -/
structure Link where
  children : List Element
  address : Bytes

/-- The `RichText` struct: style flags plus the text fragment. -/
structure RichText where
  bold : Bool
  italic : Bool
  code : Bool
  text : Bytes

/-- `<&Link as AsMarkdown>::as_link_to`: unconditionally
`panic!("Link cannot contain another link.")`, modelled as `none`. -/
def Link.as_link_to (_self : Link) (_address : Bytes) : Option Link :=
  none

/-- `<&Link as AsMarkdown>::as_bold`: unconditionally panics
(the message says to style the text before building the link), modelled as `none`. -/
def Link.as_bold (_self : Link) : Option RichText :=
  none

/-- `<&Link as AsMarkdown>::as_italic`: unconditionally panics, `none`. -/
def Link.as_italic (_self : Link) : Option RichText :=
  none

/-- `<&Link as AsMarkdown>::as_code`: unconditionally panics, `none`. -/
def Link.as_code (_self : Link) : Option RichText :=
  none

/-! ### Specification-side run functions

These follow the language of the spec about streaks ("maximal run of identical
consecutive characters"), for comparison with `count_max_streak`. -/

/-- Lengths of the runs of `char` in `carry ++ s` that are closed inside `s`
(a run is closed by the first non-`char` byte after it; a `0` is recorded
when a non-`char` byte follows no open run). -/
def closedRuns (char : Nat) (carry : Nat) : Bytes → List Nat
  | [] => []
  | b :: rest =>
    if b = char then closedRuns char (carry + 1) rest
    else carry :: closedRuns char 0 rest

/-- Length of the run of `char` still open at the end of `carry ++ s`. -/
def openRun (char : Nat) (carry : Nat) : Bytes → Nat
  | [] => carry
  | b :: rest =>
    if b = char then openRun char (carry + 1) rest
    else openRun char 0 rest

/-- Maximum of a list of naturals (0 when empty). -/
def maxList (l : List Nat) : Nat :=
  l.foldr Nat.max 0

/-- Length of the longest contiguous run of `char` anywhere in `l`, a run
still open at the end of `l` included. -/
def specMaxRun (char : Nat) (l : Bytes) : Nat :=
  Nat.max (maxList (closedRuns char 0 l)) (openRun char 0 l)

/-- Specification-side escaping: each byte in `escape` is replaced by a
backslash followed by that byte; every other byte is kept unchanged. -/
def escapeSpec (escape : Bytes) : Bytes → Bytes
  | [] => []
  | b :: rest => (if escape.contains b then [92, b] else [b]) ++ escapeSpec escape rest

theorem maxList_cons (a : Nat) (l : List Nat) :
    maxList (a :: l) = Nat.max a (maxList l) := rfl

theorem if_gt_eq_max (a b : Nat) : (if b > a then b else a) = Nat.max a b := by
  split
  · exact (max_eq_right_of_lt (by omega)).symm
  · exact (max_eq_left (by omega)).symm

/-- The streak-counter loop, characterized: the running `max` accumulator
joins the maxima of the runs closed inside the remaining input, and the final
`current` is the run still open at the end. -/
theorem countMaxStreakGo_eq (char : Nat) (s : Bytes) :
    ∀ max current, countMaxStreakGo char s max current =
      (Nat.max max (maxList (closedRuns char current s)), openRun char current s) := by
  induction s with
  | nil =>
    intro max current
    simp [countMaxStreakGo, closedRuns, openRun, maxList]
  | cons b rest ih =>
    intro max current
    by_cases hb : b = char
    · simp [countMaxStreakGo, closedRuns, openRun, hb, ih]
    · simp only [countMaxStreakGo, closedRuns, openRun, hb, if_false, ih,
        if_gt_eq_max, maxList_cons, Nat.max_assoc, ite_false]

/-- `count_max_streak` returns the maximum over the runs closed inside the
fragment, and the run still open at its end. -/
theorem count_max_streak_eq (s : Bytes) (char carry : Nat) :
    count_max_streak s char carry =
      (maxList (closedRuns char carry s), openRun char carry s) := by
  rw [count_max_streak, countMaxStreakGo_eq]
  simp [Nat.zero_max]

/-- One step of `write_escaped`: the head byte is escaped when special and
copied otherwise, then the scan continues on the tail. -/
theorem write_escaped_cons (x : Nat) (xs escape : Bytes) :
    write_escaped (x :: xs) escape =
      (if escape.contains x then [92, x] else [x]) ++ write_escaped xs escape := by
  by_cases hx : x ∈ escape
  · have h0 : findSpecial escape (x :: xs) = some 0 := by
      simp [findSpecial, hx]
    rw [write_escaped]
    split
    · simp_all
    · rename_i slice_at heq
      rw [h0] at heq
      cases heq
      simp [hx]
  ·
    cases hfind : findSpecial escape xs with
    | none =>
      have h1 : findSpecial escape (x :: xs) = none := by
        simp [findSpecial, hx, hfind]
      have h2 : write_escaped xs escape = xs := by
        rw [write_escaped]
        split
        · rfl
        · rename_i slice_at heq
          rw [hfind] at heq
          cases heq
      rw [write_escaped]
      split
      · simp [hx, h2]
      · rename_i slice_at heq
        rw [h1] at heq
        cases heq
    | some i =>
      have h1 : findSpecial escape (x :: xs) = some (i + 1) := by
        simp [findSpecial, hx, hfind]
      have h2 : write_escaped xs escape =
          xs.take i ++ [92] ++ (xs.drop i).take 1 ++
            write_escaped (xs.drop (i + 1)) escape := by
        rw [write_escaped]
        split
        · rename_i heq
          rw [hfind] at heq
          cases heq
        · rename_i slice_at heq
          rw [hfind] at heq
          cases heq
          rfl
      rw [write_escaped]
      split
      · rename_i heq
        rw [h1] at heq
        cases heq
      · rename_i slice_at heq
        rw [h1] at heq
        cases heq
        simp [hx, h2, List.take_succ_cons, List.drop_succ_cons]

/-- `write_escaped` refines the specification-side escaping map. -/
theorem write_escaped_eq_escapeSpec (s escape : Bytes) :
    write_escaped s escape = escapeSpec escape s := by
  induction s with
  | nil =>
    rw [write_escaped]
    split
    · rfl
    · rename_i slice_at heq
      simp [findSpecial] at heq
  | cons x xs ih =>
    rw [write_escaped_cons, ih]
    rfl

theorem except_ok_bind {ε α β : Type} (a : α) (f : α → Except ε β) :
    (Except.ok (ε := ε) a >>= f) = f a := rfl

theorem except_error_bind {ε α β : Type} (e : ε) (f : α → Except ε β) :
    (Except.error (α := α) e >>= f) = Except.error (α := β) e := rfl

theorem except_map_ok {ε α β : Type} (f : α → β) (a : α) :
    Except.map (ε := ε) f (Except.ok a) = Except.ok (f a) := rfl

theorem except_map_error {ε α β : Type} (f : α → β) (e : ε) :
    Except.map f (Except.error (α := α) e) = Except.error (α := β) e := rfl

/-! ### Claims -/

/-- C1: fence sizing fails when the longest backtick run of the text is still open
at the end of the text. For `s = "`"` the longest run has length `k = 1`, so
the claim requires a fence of `k + 1 = 2` backticks on each side
(```` "`` ` ``" ````), but the serializer emits a single-backtick fence
(`"` ` `"`): `count_max_streak` never folds the run still open at the end of
the text into its maximum, so `ticks_needed` evaluates to `0 + 1 = 1`. -/
theorem c1_fence_sizing_failure :
    writeTo (.richText false false true (bytesOfAscii "`")) true .Normal [] =
      .ok (bytesOfAscii "` ` `") ∧
    specMaxRun 96 (bytesOfAscii "`") = 1 ∧
    bytesOfAscii "` ` `" ≠ bytesOfAscii "`` ` ``" :=
  ⟨rfl, rfl, by decide⟩

/-- C2 counterexample: on `s = "`"`, `char` the backtick, `carry = 0`, the
longest run anywhere in `carry ++ s` (open runs included) has length 1, yet
`count_max_streak` reports a maximum of 0: the run still open at the end of
the fragment is only reported through the trailing component. -/
theorem c2_counterexample :
    count_max_streak (bytesOfAscii "`") 96 0 = (0, 1) ∧
    specMaxRun 96 (List.replicate 0 96 ++ bytesOfAscii "`") = 1 ∧
    (count_max_streak (bytesOfAscii "`") 96 0).1 ≠
      specMaxRun 96 (List.replicate 0 96 ++ bytesOfAscii "`") :=
  ⟨rfl, rfl, by decide⟩

/-- C2 (amended): `count_max_streak s char carry` returns the maximum length
over the runs of `char` in `carry ++ s` that are closed inside `s` (followed
by a non-matching byte) — a run still open at the end of `s` is not folded
into the maximum — together with the length of that still-open run. -/
theorem c2_amended (s : Bytes) (char carry : Nat) :
    count_max_streak s char carry =
      (maxList (closedRuns char carry s), openRun char carry s) :=
  count_max_streak_eq s char carry

/-- C3 counterexample: a paragraph with children `"`a"` and `"`a"` (each
with a maximum backtick streak of 1, neither with an open trailing run)
reports a maximum streak of 2 — the maxima of the children are summed, not
joined by maximum. -/
theorem c3_counterexample :
    elemCountMaxStreak (.str (bytesOfAscii "`a")) 96 0 = (1, 0) ∧
    elemCountMaxStreak
      (.paragraph [.str (bytesOfAscii "`a"), .str (bytesOfAscii "`a")]) 96 0 =
      (2, 0) ∧
    (2 : Nat) ≠ Nat.max 1 1 :=
  ⟨rfl, rfl, by decide⟩

/-- C3 (amended): for a composite element the reported max streak is the SUM
of the reported maxima of the children, threading the trailing streak of each child
into the carry of the next child (a paragraph seeds the thread with its own
incoming carry; a heading and a link reset it to 0); the address max of a link is
compared by maximum against — not added to — that sum. -/
theorem c3_amended :
    (∀ c cs char carry,
      childrenCountMaxStreak (c :: cs) char carry =
        ((elemCountMaxStreak c char carry).1 +
            (childrenCountMaxStreak cs char
              (elemCountMaxStreak c char carry).2).1,
          (childrenCountMaxStreak cs char
            (elemCountMaxStreak c char carry).2).2)) ∧
    (∀ cs char carry,
      elemCountMaxStreak (.paragraph cs) char carry =
        ((childrenCountMaxStreak cs char carry).1, 0)) ∧
    (∀ level cs char carry,
      elemCountMaxStreak (.heading level cs) char carry =
        childrenCountMaxStreak cs char 0) ∧
    (∀ cs addr char carry,
      elemCountMaxStreak (.link cs addr) char carry =
        (Nat.max (count_max_streak addr char 0).1
          (childrenCountMaxStreak cs char 0).1, 0)) := by
  refine ⟨fun c cs char carry => rfl, fun cs char carry => rfl,
    fun level cs char carry => rfl, fun cs addr char carry => ?_⟩
  simp only [elemCountMaxStreak]
  rw [← if_gt_eq_max]
  split
  · rfl
  · rfl

/-- C4: emitting a fragment under the `Normal` context produces exactly the
original bytes with each byte of the `Normal` escape set
(`\` `` ` `` `*` `_` `{` `}` `[` `]` `(` `)` `#` `+` `-` `.` `!`) immediately
preceded by one inserted backslash and nothing else changed: the scanning
`write_escaped` coincides with the byte-for-byte specification map
`escapeSpec`. -/
theorem c4_normal_escaping (s sink : Bytes) :
    strWriteTo s true .Normal sink = sink ++ escapeSpec normalEscapeSet s ∧
    write_escaped s normalEscapeSet = escapeSpec normalEscapeSet s := by
  constructor
  · simp [strWriteTo, write_escaped_eq_escapeSpec]
  · exact write_escaped_eq_escapeSpec s normalEscapeSet

/-- C5 counterexample: the end-to-end scenario (level-1 heading `"heading1"`,
level-2 heading `"heading2"` + `" appended"`, paragraph `"first\nparagraph"`
+ `" appended"`) produces a single newline between the level-2 heading line
and the paragraph — a heading is terminated by one `"\n"`, not by a blank
line — so the output differs from the claimed byte sequence, which has a
blank line there. -/
theorem c5_counterexample :
    (Markdown.write (.heading 1 [.str (bytesOfAscii "heading1")]) [] >>=
      fun sink =>
        Markdown.write (.heading 2 [.str (bytesOfAscii "heading2"),
          .str (bytesOfAscii " appended")]) sink >>=
      fun sink =>
        Markdown.write (.paragraph [.str (bytesOfAscii "first\nparagraph"),
          .str (bytesOfAscii " appended")]) sink) =
      .ok (bytesOfAscii
        "# heading1\n## heading2 appended\nfirst\nparagraph appended\n\n") ∧
    bytesOfAscii
        "# heading1\n## heading2 appended\nfirst\nparagraph appended\n\n" ≠
      bytesOfAscii
        "# heading1\n## heading2 appended\n\nfirst\nparagraph appended\n\n" := by
  constructor
  · simp [Markdown.write, writeTo, writeChildren, strWriteTo,
      write_escaped_eq_escapeSpec, escapeSpec, normalEscapeSet, bytesOfAscii,
      except_ok_bind, except_error_bind]
  · decide

/-- C5 (amended): the scenario yields
`"# heading1\n## heading2 appended\nfirst\nparagraph appended\n\n"` — one
newline terminates each heading, and the blank-line separator appears only
after the paragraph. -/
theorem c5_amended :
    (Markdown.write (.heading 1 [.str (bytesOfAscii "heading1")]) [] >>=
      fun sink =>
        Markdown.write (.heading 2 [.str (bytesOfAscii "heading2"),
          .str (bytesOfAscii " appended")]) sink >>=
      fun sink =>
        Markdown.write (.paragraph [.str (bytesOfAscii "first\nparagraph"),
          .str (bytesOfAscii " appended")]) sink) =
      .ok (bytesOfAscii
        "# heading1\n## heading2 appended\nfirst\nparagraph appended\n\n") := by
  simp [Markdown.write, writeTo, writeChildren, strWriteTo,
    write_escaped_eq_escapeSpec, escapeSpec, normalEscapeSet, bytesOfAscii,
    except_ok_bind, except_error_bind]

/-- C6 counterexample: no bracket-only or parenthesis-only escaping context
exists; the display text of a link is serialized under the inherited `Normal`
context, so a dot in the display text is escaped — the claimed
bracket-escaping context would leave it untouched. -/
theorem c6_counterexample :
    writeTo (.link [.str (bytesOfAscii "a.b")] (bytesOfAscii "u")) true
        .Normal [] =
      .ok (bytesOfAscii "[a\\.b](u)") ∧
    bytesOfAscii "[a\\.b](u)" ≠ bytesOfAscii "[a.b](u)" := by
  constructor
  · simp [writeTo, writeChildren, strWriteTo, write_escaped_eq_escapeSpec,
      escapeSpec, normalEscapeSet, bytesOfAscii, except_ok_bind]
  · decide

/-- C6 (amended): a link serializes as `[` + children + `](` + address + `)`,
children and address both under the inherited escaping context (`Normal` at
top level, escaping the full `Normal` set in both segments); the scenario
with display text `"[][]test [] link[][]"` and address
`"https://test().url()"` still yields the claimed bytes (plus the top-level
top-level newline) because that text has no parentheses or dots and that
address has no brackets. -/
theorem c6_amended :
    (∀ cs addr esc sink,
      writeTo (.link cs addr) true esc sink =
        (writeChildren cs true esc (sink ++ [91])).map
          (fun s => strWriteTo addr true esc (s ++ [93, 40]) ++ [41])) ∧
    Markdown.write
        (.link [.str (bytesOfAscii "[][]test [] link[][]")]
          (bytesOfAscii "https://test().url()")) [] =
      .ok (bytesOfAscii
        "[\\[\\]\\[\\]test \\[\\] link\\[\\]\\[\\]](https://test\\(\\)\\.url\\(\\))\n") := by
  constructor
  · intro cs addr esc sink
    simp only [writeTo]
    cases h : writeChildren cs true esc (sink ++ [91]) <;>
      simp [h, except_map_ok, except_map_error, except_ok_bind, except_error_bind]
  · simp [Markdown.write, writeTo, writeChildren, strWriteTo,
      write_escaped_eq_escapeSpec, escapeSpec, normalEscapeSet, bytesOfAscii,
      except_ok_bind]

/-- C7: a paragraph or a heading invoked with `inner = true` fails with the
corresponding assertion ("Inner paragraphs/headings are forbidden.") before
any bytes of the element are written: the error carries the sink exactly
as it was received. -/
theorem c7_top_level_only (cs : List Element) (esc : Escaping) (sink : Bytes)
    (level : Nat) :
    writeTo (.paragraph cs) true esc sink =
      .error ("Inner paragraphs are forbidden.", sink) ∧
    writeTo (.heading level cs) true esc sink =
      .error ("Inner headings are forbidden.", sink) :=
  ⟨rfl, rfl⟩

/-- C8: `Heading::new` succeeds exactly for levels 1 through 6 (0 and 7 are
rejected at construction), and a heading serialized at top level emits
exactly `level` hash bytes, one space byte, the children under `Normal`
context, and a final newline. -/
theorem c8_heading_level :
    (∀ level, (Heading.new level).isSome ↔ (1 ≤ level ∧ level ≤ 6)) ∧
    (∀ level cs esc sink,
      writeTo (.heading level cs) false esc sink =
        (writeChildren cs true .Normal
          (sink ++ (List.replicate level 35 ++ [32]))).map (· ++ [10])) ∧
    writeTo (.heading 2 [.str (bytesOfAscii "h")]) false .Normal [] =
      .ok (bytesOfAscii "## h\n") := by
  refine ⟨fun level => ?_, fun level cs esc sink => ?_, ?_⟩
  · simp only [Heading.new]
    split
    · rename_i h
      simp only [Option.isSome_some, true_iff]
      omega
    · rename_i h
      simp only [Option.isSome_none, Bool.false_eq_true, false_iff]
      omega
  · simp only [writeTo]
    cases h : writeChildren cs true .Normal
        (sink ++ (List.replicate level 35 ++ [32])) <;>
      simp [h, except_map_ok, except_map_error, except_ok_bind, except_error_bind]
  · simp [writeTo, writeChildren, strWriteTo, write_escaped_eq_escapeSpec,
      escapeSpec, normalEscapeSet, bytesOfAscii, except_ok_bind]

/-- C9: every transformation that would wrap a link in another link or
restyle a finished link (`as_link_to`, `as_bold`, `as_italic`, `as_code` on
a `&Link`) panics unconditionally; no value is ever produced. -/
theorem c9_link_transforms_panic (l : Link) (addr : Bytes) :
    Link.as_link_to l addr = none ∧ Link.as_bold l = none ∧
    Link.as_italic l = none ∧ Link.as_code l = none :=
  ⟨rfl, rfl, rfl, rfl⟩

/-- C10: serializing a link with `inner = false` — as `Markdown::write`
does — appends exactly one newline after the closing parenthesis (the
`inner = true` output followed by one `"\n"`), while a top-level plain
string receives the blank-line separator `"\n\n"`. -/
theorem c10_link_newline :
    (∀ cs addr esc sink,
      writeTo (.link cs addr) false esc sink =
        (writeTo (.link cs addr) true esc sink).map (· ++ [10])) ∧
    (∀ cs addr sink,
      Markdown.write (.link cs addr) sink =
        (writeTo (.link cs addr) true .Normal sink).map (· ++ [10])) ∧
    (∀ cs addr esc sink,
      writeTo (.link cs addr) true esc sink =
        (writeChildren cs true esc (sink ++ [91])).map
          (fun s => strWriteTo addr true esc (s ++ [93, 40]) ++ [41])) ∧
    (∀ s sink,
      Markdown.write (.str s) sink =
        .ok (strWriteTo s true .Normal sink ++ [10, 10])) := by
  have key : ∀ cs addr esc sink,
      writeTo (.link cs addr) false esc sink =
        (writeTo (.link cs addr) true esc sink).map (· ++ [10]) := by
    intro cs addr esc sink
    simp only [writeTo]
    cases h : writeChildren cs true esc (sink ++ [91]) <;>
      simp [h, except_map_ok, except_map_error, except_ok_bind, except_error_bind]
  refine ⟨key, fun cs addr sink => key cs addr .Normal sink,
    fun cs addr esc sink => ?_, fun s sink => rfl⟩
  simp only [writeTo]
  cases h : writeChildren cs true esc (sink ++ [91]) <;>
    simp [h, except_map_ok, except_map_error, except_ok_bind, except_error_bind]
